import Mathlib

/-!
# Verification of the SARdine tiled float32 GeoTIFF writer and its numeric pipeline

Shallow embedding of the encoder logic that the repository's test scripts
implement (`write_float32_geotiff_js_style` in `scripts/test-float32-geotiff.py`
and `scripts/test-sardine-pipeline.py`, `sardine_write` in
`test/scripts/compare-writers.py`, `write_minimal_geotiff` in
`scripts/test-geotiff-georef.py`), together with the box-filter decimator
(`read_nisar_band_stripe`, `read_bands`) and the pixel-center → pixel-edge
bounds correction.

Modelling conventions:
* machine floats carrying coordinate / sample values are modelled as `ℚ`
  (the writer never performs arithmetic on samples, it only copies them, so
  the tile pipeline is additionally parametric in the sample type);
* byte buffers are `List ℕ` with each element one byte;
* the DEFLATE compressor (together with the float32 → little-endian byte
  conversion of a tile buffer) is an opaque parameter `compress`, and the
  8-byte IEEE-754 encoding of a double is an opaque parameter `f64`;
* the Python writer fills a zero-initialised `bytearray` at strictly
  sequential, non-overlapping positions (header, then IFD entries with their
  overflow blocks, then tile payloads); those sequential writes are modelled
  as list concatenation in the same order, unwritten gap bytes being the
  zeros the source leaves in place.
-/

namespace Sardine

/-! ## TIFF constants (matching the constant tables of the scripts) -/

def TILE_SIZE : ℕ := 512

def TAG_IMAGE_WIDTH : ℕ := 256
def TAG_IMAGE_LENGTH : ℕ := 257
def TAG_BITS_PER_SAMPLE : ℕ := 258
def TAG_COMPRESSION : ℕ := 259
def TAG_PHOTOMETRIC : ℕ := 262
def TAG_SAMPLES_PER_PIXEL : ℕ := 277
def TAG_PLANAR_CONFIG : ℕ := 284
def TAG_TILE_WIDTH : ℕ := 322
def TAG_TILE_LENGTH : ℕ := 323
def TAG_TILE_OFFSETS : ℕ := 324
def TAG_TILE_BYTE_COUNTS : ℕ := 325
def TAG_SAMPLE_FORMAT : ℕ := 339
def TAG_MODEL_PIXEL_SCALE : ℕ := 33550
def TAG_MODEL_TIEPOINT : ℕ := 33922
def TAG_GEO_KEY_DIRECTORY : ℕ := 34735

def TYPE_SHORT : ℕ := 3
def TYPE_LONG : ℕ := 4
def TYPE_DOUBLE : ℕ := 12

def KEY_GT_MODEL_TYPE : ℕ := 1024
def KEY_GT_RASTER_TYPE : ℕ := 1025
def KEY_GEOGRAPHIC_TYPE : ℕ := 2048
def KEY_PROJECTED_CS_TYPE : ℕ := 3072
def MODEL_TYPE_PROJECTED : ℕ := 1
def MODEL_TYPE_GEOGRAPHIC : ℕ := 2
def RASTER_TYPE_PIXEL_IS_AREA : ℕ := 1

/-- `type_sizes = {TYPE_SHORT: 2, TYPE_LONG: 4, TYPE_DOUBLE: 8}`. -/
def typeSize (t : ℕ) : ℕ :=
  if t = TYPE_SHORT then 2 else if t = TYPE_LONG then 4 else 8

/-! ## Data model: tag entries (typed variant per §9 of the design notes) -/

/-- The value payload of one IFD entry: SHORT/LONG entries carry machine
integers, DOUBLE entries carry floats (modelled as `ℚ`). -/
inductive TagValues where
  | ints : List ℕ → TagValues
  | doubles : List ℚ → TagValues
deriving DecidableEq

/-- One IFD entry `(tag, type, count, values)` as built by the scripts. -/
structure TagEntry where
  tag : ℕ
  typ : ℕ
  count : ℕ
  values : TagValues
deriving DecidableEq

/-- `byte_size = type_sizes[typ] * count`. -/
def byteSize (e : TagEntry) : ℕ := typeSize e.typ * e.count

def intVals : TagValues → List ℕ
  | .ints l => l
  | .doubles _ => []

def dblVals : TagValues → List ℚ
  | .ints _ => []
  | .doubles l => l

def isIntsB : TagValues → Bool
  | .ints _ => true
  | .doubles _ => false

/-- Well-formedness of an entry: the declared type code matches the payload
variant and the payload length equals `count` (true for every entry the
builder produces). -/
def wfEntry (e : TagEntry) : Prop :=
  ((e.typ = TYPE_SHORT ∨ e.typ = TYPE_LONG) ∧ isIntsB e.values = true ∧
      (intVals e.values).length = e.count) ∨
    (e.typ = TYPE_DOUBLE ∧ isIntsB e.values = false ∧
      (dblVals e.values).length = e.count)

instance (e : TagEntry) : Decidable (wfEntry e) := by
  unfold wfEntry; infer_instance

/-! ## TileCompressor (Step 1 of `write_float32_geotiff_js_style`) -/

/-- Python ceil-division idiom `-(-w // TILE_SIZE)`. -/
def tilesAcross (w : ℕ) : ℕ := (w + TILE_SIZE - 1) / TILE_SIZE

/-- `bands[band_names[b]][idx]`: band `b`'s flat row-major sample at `idx`. -/
def bandAt {α : Type} [Zero α] (bands : List (List α)) (b idx : ℕ) : α :=
  (bands.getD b []).getD idx 0

/-- The zero-filled `TILE_SIZE × TILE_SIZE × nb` band-interleaved tile buffer
for tile `(tx, ty)`.  The source fills a zero buffer with the double loop
`for py in range(tile_h): for px in range(tile_w): for b in range(nb):
buf[(py*TILE+px)*nb + b] = bands[b][(y0+py)*w + (x0+px)]` where
`tile_w = min(TILE, w - x0)` and `tile_h = min(TILE, h - y0)`; here the same
buffer is produced positionally, recovering `(px, py, b)` from the
destination index. -/
def tileData {α : Type} [Zero α] (bands : List (List α)) (nb w h tx ty : ℕ) :
    List α :=
  (List.range (TILE_SIZE * TILE_SIZE * nb)).map fun i =>
    let b := i % nb
    let p := i / nb
    let px := p % TILE_SIZE
    let py := p / TILE_SIZE
    if px < min TILE_SIZE (w - tx * TILE_SIZE) ∧
        py < min TILE_SIZE (h - ty * TILE_SIZE) then
      bandAt bands b ((ty * TILE_SIZE + py) * w + (tx * TILE_SIZE + px))
    else 0

/-- All tile buffers in row-major tile order (`ty` outer, `tx` inner). -/
def tileBuffers {α : Type} [Zero α] (bands : List (List α)) (nb w h : ℕ) :
    List (List α) :=
  (List.range (tilesAcross h)).flatMap fun ty =>
    (List.range (tilesAcross w)).map fun tx => tileData bands nb w h tx ty

/-! ## IFDBuilder (Step 2) -/

/-- The geo key directory of the tiled float32 writer: model type and
coordinate-system key are hard-wired to the projected case
(`1024 ↦ MODEL_TYPE_PROJECTED`, `3072 ↦ epsg`). -/
def geoKeysF32 (epsg : ℕ) : List ℕ :=
  [1, 1, 0, 3,
   KEY_GT_MODEL_TYPE, 0, 1, MODEL_TYPE_PROJECTED,
   KEY_GT_RASTER_TYPE, 0, 1, RASTER_TYPE_PIXEL_IS_AREA,
   KEY_PROJECTED_CS_TYPE, 0, 1, epsg]

/-- The geo key directory of `write_minimal_geotiff`: model type 2 and the
geographic CS key when `4000 <= epsg < 5000`, else model type 1 and the
projected CS key. -/
def geoKeysMinimal (epsg : ℕ) : List ℕ :=
  let modelType :=
    if 4000 ≤ epsg ∧ epsg < 5000 then MODEL_TYPE_GEOGRAPHIC
    else MODEL_TYPE_PROJECTED
  let csKey :=
    if 4000 ≤ epsg ∧ epsg < 5000 then KEY_GEOGRAPHIC_TYPE
    else KEY_PROJECTED_CS_TYPE
  [1, 1, 0, 3,
   KEY_GT_MODEL_TYPE, 0, 1, modelType,
   KEY_GT_RASTER_TYPE, 0, 1, RASTER_TYPE_PIXEL_IS_AREA,
   csKey, 0, 1, epsg]

/-- The 15 entries appended by the float32 writer, in append order (before
sorting).  `bcs` is the per-tile compressed byte count list. -/
def buildEntries (nb w h : ℕ) (bcs : List ℕ) (minX minY maxX maxY : ℚ)
    (epsg : ℕ) : List TagEntry :=
  let numTiles := tilesAcross w * tilesAcross h
  let psx := (maxX - minX) / (w : ℚ)
  let psy := (maxY - minY) / (h : ℚ)
  [⟨TAG_IMAGE_WIDTH, TYPE_LONG, 1, .ints [w]⟩,
   ⟨TAG_IMAGE_LENGTH, TYPE_LONG, 1, .ints [h]⟩,
   ⟨TAG_BITS_PER_SAMPLE, TYPE_SHORT, nb, .ints (List.replicate nb 32)⟩,
   ⟨TAG_COMPRESSION, TYPE_SHORT, 1, .ints [8]⟩,
   ⟨TAG_PHOTOMETRIC, TYPE_SHORT, 1, .ints [1]⟩,
   ⟨TAG_SAMPLES_PER_PIXEL, TYPE_SHORT, 1, .ints [nb]⟩,
   ⟨TAG_PLANAR_CONFIG, TYPE_SHORT, 1, .ints [1]⟩,
   ⟨TAG_TILE_WIDTH, TYPE_LONG, 1, .ints [TILE_SIZE]⟩,
   ⟨TAG_TILE_LENGTH, TYPE_LONG, 1, .ints [TILE_SIZE]⟩,
   ⟨TAG_TILE_OFFSETS, TYPE_LONG, numTiles, .ints (List.replicate numTiles 0)⟩,
   ⟨TAG_TILE_BYTE_COUNTS, TYPE_LONG, numTiles, .ints bcs⟩,
   ⟨TAG_SAMPLE_FORMAT, TYPE_SHORT, nb, .ints (List.replicate nb 3)⟩,
   ⟨TAG_MODEL_TIEPOINT, TYPE_DOUBLE, 6, .doubles [0, 0, 0, minX, maxY, 0]⟩,
   ⟨TAG_MODEL_PIXEL_SCALE, TYPE_DOUBLE, 3, .doubles [psx, psy, 0]⟩,
   ⟨TAG_GEO_KEY_DIRECTORY, TYPE_SHORT, 16, .ints (geoKeysF32 epsg)⟩]

/-- Insertion step of `entries.sort(key=lambda e: e[0])`. -/
def insertByTag (e : TagEntry) : List TagEntry → List TagEntry
  | [] => [e]
  | f :: fs => if e.tag ≤ f.tag then e :: f :: fs else f :: insertByTag e fs

/-- Sort the entries ascending by tag id (all tags are distinct, so any
stable comparison sort produces this insertion sort's result). -/
def sortByTag (es : List TagEntry) : List TagEntry := es.foldr insertByTag []

/-! ## LayoutPlanner (Step 3) -/

def headerSize : ℕ := 8

/-- `ifd_offset = header_size`. -/
def ifdOffset : ℕ := headerSize

/-- `ifd_size = 2 + len(entries) * 12 + 4`. -/
def ifdSize (n : ℕ) : ℕ := 2 + n * 12 + 4

/-- `if acc % 2 != 0: acc += 1` — round a running offset up to even. -/
def pad2 (t : ℕ) : ℕ := if t % 2 ≠ 0 then t + 1 else t

/-- The overflow-size accumulation loop: walk the (sorted) entries, reserve
`byte_size` bytes for each entry whose value does not fit in 4 bytes, and
round the running total up to an even boundary after each reservation.
Returns the final accumulator. -/
def ovfReserve (acc : ℕ) : List TagEntry → ℕ
  | [] => acc
  | e :: rest =>
    if 4 < byteSize e then ovfReserve (pad2 (acc + byteSize e)) rest
    else ovfReserve acc rest

def overflowSize (es : List TagEntry) : ℕ := ovfReserve 0 es

/-- Start offsets of the reserved overflow spans, in entry-walk order. -/
def ovfStarts (acc : ℕ) : List TagEntry → List ℕ
  | [] => []
  | e :: rest =>
    if 4 < byteSize e then acc :: ovfStarts (pad2 (acc + byteSize e)) rest
    else ovfStarts acc rest

/-- `overflow_offset = ifd_offset + ifd_size`. -/
def overflowOffset (es : List TagEntry) : ℕ := ifdOffset + ifdSize es.length

/-- `tile_data_offset = overflow_offset + overflow_size`. -/
def tileDataOffset (es : List TagEntry) : ℕ := overflowOffset es + overflowSize es

/-- `total_size = tile_data_offset + total_tile_bytes`. -/
def totalSize (es : List TagEntry) (bcs : List ℕ) : ℕ :=
  tileDataOffset es + bcs.sum

/-! ## BinarySerializer (Step 4) -/

/-- `struct.pack('<H', v)` for an in-range value. -/
def u16le (v : ℕ) : List ℕ := [v % 256, v / 256 % 256]

/-- `struct.pack('<I', v)` for an in-range value. -/
def u32le (v : ℕ) : List ℕ :=
  [v % 256, v / 256 % 256, v / 2 ^ 16 % 256, v / 2 ^ 24 % 256]

/-- The 4 inline value bytes of an entry whose `byte_size <= 4`; positions
the source does not overwrite keep the buffer's zero fill. -/
def inlineBytes (e : TagEntry) : List ℕ :=
  if e.count = 1 ∧ e.typ = TYPE_SHORT then
    u16le ((intVals e.values).getD 0 0) ++ [0, 0]
  else if e.count = 1 ∧ e.typ = TYPE_LONG then
    u32le ((intVals e.values).getD 0 0)
  else if e.count = 2 ∧ e.typ = TYPE_SHORT then
    u16le ((intVals e.values).getD 0 0) ++ u16le ((intVals e.values).getD 1 0)
  else [0, 0, 0, 0]

/-- The back-filled absolute tile offsets: a running position starting at the
tile payload base, advanced by each tile's compressed byte count. -/
def tileOffsetsFrom (base : ℕ) : List ℕ → List ℕ
  | [] => []
  | c :: cs => base :: tileOffsetsFrom (base + c) cs

/-- The value bytes written into an entry's overflow span.  For
`TAG_TILE_OFFSETS` the source back-fills the absolute tile offsets instead of
the placeholder values; any other entry's values are packed per the declared
type. -/
def ovfBlock (e : TagEntry) (f64 : ℚ → List ℕ) (tileBase : ℕ)
    (bcs : List ℕ) : List ℕ :=
  if e.tag = TAG_TILE_OFFSETS then (tileOffsetsFrom tileBase bcs).flatMap u32le
  else if e.typ = TYPE_SHORT then (intVals e.values).flatMap u16le
  else if e.typ = TYPE_LONG then (intVals e.values).flatMap u32le
  else (dblVals e.values).flatMap f64

/-- The single pass of the writer over the sorted entries: produces the
12-byte IFD records (first component) and the overflow region bytes (second
component), threading the running overflow cursor exactly as the source
threads `cur_overflow` (advance by the bytes written, then round up to even,
leaving a zero pad byte). -/
def serEntries (f64 : ℚ → List ℕ) (tileBase : ℕ) (bcs : List ℕ) :
    List TagEntry → ℕ → List ℕ × List ℕ
  | [], _ => ([], [])
  | e :: rest, curOvf =>
    let hdr := u16le e.tag ++ u16le e.typ ++ u32le e.count
    if byteSize e ≤ 4 then
      let r := serEntries f64 tileBase bcs rest curOvf
      (hdr ++ inlineBytes e ++ r.1, r.2)
    else
      let block := ovfBlock e f64 tileBase bcs
      let nxt := pad2 (curOvf + byteSize e)
      let r := serEntries f64 tileBase bcs rest nxt
      (hdr ++ u32le curOvf ++ r.1,
       (block ++ List.replicate (nxt - (curOvf + byteSize e)) 0) ++ r.2)

/-- `struct.pack_into('<2sHI', buf, 0, b'II', 42, ifd_offset)`:
`b'II'` is bytes 73, 73. -/
def tiffHeader : List ℕ := [73, 73] ++ u16le 42 ++ u32le ifdOffset

/-- The whole output buffer: header, entry count, IFD records, 4-byte zero
next-IFD pointer, overflow region, then the compressed tile payloads
concatenated in tile index order. -/
def serializeTiff (f64 : ℚ → List ℕ) (es : List TagEntry)
    (tiles : List (List ℕ)) : List ℕ :=
  let bcs := tiles.map List.length
  let r := serEntries f64 (tileDataOffset es) bcs es (overflowOffset es)
  tiffHeader ++ u16le es.length ++ r.1 ++ u32le 0 ++ r.2 ++ tiles.flatten

/-! ## The assembled encoder -/

/-- The opaque collaborators of the writer: `compress` is DEFLATE composed
with the float32 → little-endian byte view of a tile buffer, `f64` is the
8-byte IEEE-754 little-endian encoding of a double. -/
structure Codec (α : Type) where
  compress : List α → List ℕ
  f64 : ℚ → List ℕ

/-- `write_float32_geotiff_js_style` up to the final buffer: compress the
tiles, build and sort the entries, plan the layout, serialize. -/
def encodeTiff {α : Type} [Zero α] (codec : Codec α) (bands : List (List α))
    (w h : ℕ) (minX minY maxX maxY : ℚ) (epsg : ℕ) : List ℕ :=
  let nb := bands.length
  let tiles := (tileBuffers bands nb w h).map codec.compress
  let es := sortByTag
    (buildEntries nb w h (tiles.map List.length) minX minY maxX maxY epsg)
  serializeTiff codec.f64 es tiles

/-- The writer as a fallible computation.  The source performs no input
validation at all; the only aborting path before the buffer is produced is
the `ZeroDivisionError` of the pixel-scale division when `width` or `height`
is zero. -/
def encodeChecked {α : Type} [Zero α] (codec : Codec α)
    (bands : List (List α)) (w h : ℕ) (minX minY maxX maxY : ℚ)
    (epsg : ℕ) : Except String (List ℕ) :=
  if w = 0 ∨ h = 0 then .error "ZeroDivisionError"
  else .ok (encodeTiff codec bands w h minX minY maxX maxY epsg)

/-! ## A compliant reader of the produced buffer

Decoding per the format: read the IFD, locate the tile-offset and
tile-byte-count arrays (inline when their byte size fits in the 4 value
bytes, otherwise behind a pointer), slice the payload, decompress, and crop
the tile padding by indexing only in-extent pixels. -/

def readByte (buf : List ℕ) (p : ℕ) : ℕ := buf.getD p 0

def readU16 (buf : List ℕ) (p : ℕ) : ℕ :=
  readByte buf p + 256 * readByte buf (p + 1)

def readU32 (buf : List ℕ) (p : ℕ) : ℕ :=
  readByte buf p + 256 * readByte buf (p + 1) +
    2 ^ 16 * readByte buf (p + 2) + 2 ^ 24 * readByte buf (p + 3)

/-- Byte offset of the `i`-th 12-byte IFD record. -/
def entryBase (ifdOff i : ℕ) : ℕ := ifdOff + 2 + 12 * i

/-- Index of the first IFD record carrying `tag`. -/
def findTagIdx (buf : List ℕ) (ifdOff n tag : ℕ) : Option ℕ :=
  (List.range n).find? fun i => readU16 buf (entryBase ifdOff i) == tag

/-- `(count, 4-byte value field)` of the record carrying `tag`. -/
def tagField (buf : List ℕ) (tag : ℕ) : Option (ℕ × ℕ) :=
  let ifdOff := readU32 buf 4
  let n := readU16 buf ifdOff
  (findTagIdx buf ifdOff n tag).map fun i =>
    (readU32 buf (entryBase ifdOff i + 4), readU32 buf (entryBase ifdOff i + 8))

/-- A scalar SHORT/LONG tag value (inline; the SHORT case reads correctly
through the zero padding of the 4-byte field). -/
def scalarVal (buf : List ℕ) (tag : ℕ) : ℕ :=
  ((tagField buf tag).map Prod.snd).getD 0

/-- Element `k` of a LONG-array tag: inline when `4 * count ≤ 4`, otherwise
read through the overflow pointer. -/
def longArrayVal (buf : List ℕ) (tag k : ℕ) : ℕ :=
  match tagField buf tag with
  | none => 0
  | some (count, v) => if 4 * count ≤ 4 then v else readU32 buf (v + 4 * k)

/-- Decode the sample of band `b` at pixel `(x, y)`: locate the pixel's tile
through the tile-offset and tile-byte-count arrays, decompress its payload
with `dec` (the inverse of the writer's compressor), and read the
band-interleaved position — in-extent indexing crops the zero padding of
edge tiles. -/
def decodeSample {α : Type} [Zero α] (dec : List ℕ → List α) (buf : List ℕ)
    (b x y : ℕ) : α :=
  let w := scalarVal buf TAG_IMAGE_WIDTH
  let tw := scalarVal buf TAG_TILE_WIDTH
  let tl := scalarVal buf TAG_TILE_LENGTH
  let nb := scalarVal buf TAG_SAMPLES_PER_PIXEL
  let tilesX := (w + tw - 1) / tw
  let k := y / tl * tilesX + x / tw
  let off := longArrayVal buf TAG_TILE_OFFSETS k
  let cnt := longArrayVal buf TAG_TILE_BYTE_COUNTS k
  let data := dec ((buf.drop off).take cnt)
  data.getD ((y % tl * tw + x % tw) * nb + b) 0

/-! ## CoordinateCorrector

The pixel-center → pixel-edge bounds correction applied before writing
(`main.jsx` export handler, replicated in `compare-writers.py` lines 348-354
and `test-geotiff-georef.py` lines 243-250). -/

def correctBounds (minX minY maxX maxY sx sy : ℚ) : ℚ × ℚ × ℚ × ℚ :=
  (minX - sx / 2, minY - sy / 2, maxX + sx / 2, maxY + sy / 2)

/-! ## Decimator

Per-cell loop variant (`read_nisar_band_stripe` in
`test-sardine-pipeline.py`): for each output cell gather the `ml × ml`
source block, keep the samples strictly greater than zero, output their mean
or leave the zero fill. -/

/-- The `ml × ml` source block of output cell `(oy, ox)`, row-major. -/
def blockSamples (g : ℕ → ℕ → ℚ) (ml oy ox : ℕ) : List ℚ :=
  (List.range ml).flatMap fun i =>
    (List.range ml).map fun j => g (oy * ml + i) (ox * ml + j)

/-- `valid = block[block > 0]; out = mean(valid) if len(valid) > 0 else 0`. -/
def decimateCell (g : ℕ → ℕ → ℚ) (ml oy ox : ℕ) : ℚ :=
  let valid := (blockSamples g ml oy ox).filter fun v => decide (0 < v)
  if valid.length = 0 then 0 else valid.sum / (valid.length : ℚ)

/-- The decimated grid: shape `(h / ml, w / ml)` by floor division. -/
def decimateGrid (g : ℕ → ℕ → ℚ) (h w ml : ℕ) : List (List ℚ) :=
  (List.range (h / ml)).map fun oy =>
    (List.range (w / ml)).map fun ox => decimateCell g ml oy ox

/-- Vectorized variant (`read_bands` in `compare-writers.py`): mask
non-positive samples as missing (`np.where(block > 0, block, nan)`), take
`nanmean` over each block — the mean of the unmasked samples, gathered as an
unordered set — and replace an all-missing result with 0
(`np.nan_to_num(..., nan=0.0)`), in exact arithmetic. -/
def validSet (g : ℕ → ℕ → ℚ) (ml oy ox : ℕ) : Finset (ℕ × ℕ) :=
  (Finset.range ml ×ˢ Finset.range ml).filter fun p =>
    0 < g (oy * ml + p.1) (ox * ml + p.2)

def decimateCellVec (g : ℕ → ℕ → ℚ) (ml oy ox : ℕ) : ℚ :=
  let s := validSet g ml oy ox
  if s.card = 0 then 0
  else (∑ p ∈ s, g (oy * ml + p.1) (ox * ml + p.2)) / (s.card : ℚ)

def decimateGridVec (g : ℕ → ℕ → ℚ) (h w ml : ℕ) : List (List ℚ) :=
  (List.range (h / ml)).map fun oy =>
    (List.range (w / ml)).map fun ox => decimateCellVec g ml oy ox

/-! ## Concrete single-tile run of the writer

A 1×1 raster with one band: `tilesAcross 1 = 1`, so the tile-offset entry
has count 1 and transient byte size 4.  The codec instantiates the opaque
collaborators: `compress` as the identity on byte lists (a lawful codec —
its inverse is the identity), `f64` as a constant 8-byte block. -/

/-- A concrete stand-in for the 8-byte IEEE-754 double encoding. -/
def f64c : ℚ → List ℕ := fun _ => List.replicate 8 0

def idCodec : Codec ℕ := ⟨id, f64c⟩

def oneBand : List (List ℕ) := [[42]]

/-- The single tile buffer of the 1×1 run (262144 samples, `42` then
zero padding). -/
def bugTile : List ℕ := tileData oneBand 1 1 1 0 0

/-- The buffer the writer produces for the single-tile raster. -/
def bugBuf : List ℕ := encodeTiff idCodec oneBand 1 1 0 0 1 1 32718

/-- The sorted entry list of the 1×1 run, fully evaluated. -/
def esBug : List TagEntry :=
  [⟨256, 4, 1, .ints [1]⟩, ⟨257, 4, 1, .ints [1]⟩, ⟨258, 3, 1, .ints [32]⟩,
   ⟨259, 3, 1, .ints [8]⟩, ⟨262, 3, 1, .ints [1]⟩, ⟨277, 3, 1, .ints [1]⟩,
   ⟨284, 3, 1, .ints [1]⟩, ⟨322, 4, 1, .ints [512]⟩, ⟨323, 4, 1, .ints [512]⟩,
   ⟨324, 4, 1, .ints [0]⟩, ⟨325, 4, 1, .ints [262144]⟩, ⟨339, 3, 1, .ints [3]⟩,
   ⟨33550, 12, 3, .doubles [1, 1, 0]⟩,
   ⟨33922, 12, 6, .doubles [0, 0, 0, 0, 1, 0]⟩,
   ⟨34735, 3, 16, .ints [1, 1, 0, 3, 1024, 0, 1, 1, 1025, 0, 1, 1,
                         3072, 0, 1, 32718]⟩]

/-- The 298 bytes of the 1×1 run's buffer before the tile payload: header
(8), IFD (186), overflow region (104).  The tile-offset entry (tag 324,
bytes 122–133) carries the inline placeholder value 0. -/
def bugPre : List ℕ :=
  [73, 73, 42, 0, 8, 0, 0, 0, 15, 0,
   0, 1, 4, 0, 1, 0, 0, 0, 1, 0, 0, 0,
   1, 1, 4, 0, 1, 0, 0, 0, 1, 0, 0, 0,
   2, 1, 3, 0, 1, 0, 0, 0, 32, 0, 0, 0,
   3, 1, 3, 0, 1, 0, 0, 0, 8, 0, 0, 0,
   6, 1, 3, 0, 1, 0, 0, 0, 1, 0, 0, 0,
   21, 1, 3, 0, 1, 0, 0, 0, 1, 0, 0, 0,
   28, 1, 3, 0, 1, 0, 0, 0, 1, 0, 0, 0,
   66, 1, 4, 0, 1, 0, 0, 0, 0, 2, 0, 0,
   67, 1, 4, 0, 1, 0, 0, 0, 0, 2, 0, 0,
   68, 1, 4, 0, 1, 0, 0, 0, 0, 0, 0, 0,
   69, 1, 4, 0, 1, 0, 0, 0, 0, 0, 4, 0,
   83, 1, 3, 0, 1, 0, 0, 0, 3, 0, 0, 0,
   14, 131, 12, 0, 3, 0, 0, 0, 194, 0, 0, 0,
   130, 132, 12, 0, 6, 0, 0, 0, 218, 0, 0, 0,
   175, 135, 3, 0, 16, 0, 0, 0, 10, 1, 0, 0,
   0, 0, 0, 0,
   0, 0, 0, 0, 0, 0, 0, 0, 0, 0, 0, 0, 0, 0, 0, 0, 0, 0, 0, 0, 0, 0, 0, 0,
   0, 0, 0, 0, 0, 0, 0, 0, 0, 0, 0, 0, 0, 0, 0, 0, 0, 0, 0, 0, 0, 0, 0, 0,
   0, 0, 0, 0, 0, 0, 0, 0, 0, 0, 0, 0, 0, 0, 0, 0, 0, 0, 0, 0, 0, 0, 0, 0,
   1, 0, 1, 0, 0, 0, 3, 0, 0, 4, 0, 0, 1, 0, 1, 0, 1, 4, 0, 0, 1, 0, 1, 0,
   0, 12, 0, 0, 1, 0, 206, 127]

/-- A 2×2 grid whose only positive sample sits at `(1, 1)` (witness data for
the decimator claims). -/
def gridOnePos : ℕ → ℕ → ℚ := fun i j => if i = 1 ∧ j = 1 then 5 else 0

/-- Small concrete entry list (layout witness data). -/
def wEntries : List TagEntry :=
  [⟨256, TYPE_LONG, 1, .ints [9]⟩, ⟨33550, TYPE_DOUBLE, 3, .doubles [1, 2, 0]⟩]

/-- Small concrete compressed tile set (layout witness data). -/
def wTiles : List (List ℕ) := [[1, 2, 3], [4]]

/-! # Theorems -/

/-! ## List/Finset bridging helpers -/

theorem list_sum_range {M : Type} [AddCommMonoid M] (n : ℕ) (f : ℕ → M) :
    ((List.range n).map f).sum = ∑ i ∈ Finset.range n, f i := by
  induction n with
  | zero => simp
  | succ m ih => rw [List.range_succ, Finset.sum_range_succ]; simp [ih]

theorem list_sum_flatMap {M : Type} [AddCommMonoid M] (l : List ℕ)
    (f : ℕ → List M) :
    (l.flatMap f).sum = (l.map fun i => (f i).sum).sum := by
  induction l with
  | nil => simp
  | cons a t ih => simp [List.flatMap_cons, ih]

theorem filter_sum (l : List ℚ) (p : ℚ → Bool) :
    (l.filter p).sum = (l.map fun v => if p v then v else 0).sum := by
  induction l with
  | nil => simp
  | cons a t ih => by_cases h : p a <;> simp [List.filter_cons, h, ih]

theorem filter_length (l : List ℚ) (p : ℚ → Bool) :
    (l.filter p).length = (l.map fun v => if p v then (1 : ℕ) else 0).sum := by
  induction l with
  | nil => simp
  | cons a t ih =>
    by_cases h : p a <;> simp [List.filter_cons, h, ih, Nat.add_comm]

/-! ## Decimator: the two implementations agree -/

theorem valid_sum (g : ℕ → ℕ → ℚ) (ml oy ox : ℕ) :
    ((blockSamples g ml oy ox).filter fun v => decide (0 < v)).sum
      = ∑ p ∈ validSet g ml oy ox, g (oy * ml + p.1) (ox * ml + p.2) := by
  rw [filter_sum, blockSamples, List.map_flatMap, list_sum_flatMap,
    validSet, Finset.sum_filter, Finset.sum_product, ← list_sum_range]
  congr 1
  refine List.map_congr_left fun i _ => ?_
  rw [List.map_map, list_sum_range]
  simp

theorem valid_card (g : ℕ → ℕ → ℚ) (ml oy ox : ℕ) :
    ((blockSamples g ml oy ox).filter fun v => decide (0 < v)).length
      = (validSet g ml oy ox).card := by
  rw [filter_length, blockSamples, List.map_flatMap, list_sum_flatMap,
    validSet, Finset.card_filter, Finset.sum_product, ← list_sum_range]
  congr 1
  refine List.map_congr_left fun i _ => ?_
  rw [List.map_map, list_sum_range]
  simp

theorem decimateCell_eq_vec (g : ℕ → ℕ → ℚ) (ml oy ox : ℕ) :
    decimateCell g ml oy ox = decimateCellVec g ml oy ox := by
  simp only [decimateCell, decimateCellVec]
  rw [valid_card, valid_sum]

/-- C10: the per-cell loop decimator (`read_nisar_band_stripe`) and the
vectorized mask/nanmean decimator (`read_bands`) compute the same output
grid for every input grid and every factor `ml ≥ 1`, over exact
arithmetic. -/
theorem C10_decimators_equivalent (g : ℕ → ℕ → ℚ) (h w ml : ℕ)
    (hml : 1 ≤ ml) : decimateGrid g h w ml = decimateGridVec g h w ml := by
  unfold decimateGrid decimateGridVec
  refine List.map_congr_left fun oy _ => ?_
  exact List.map_congr_left fun ox _ => decimateCell_eq_vec g ml oy ox

theorem C10_decimators_equivalent_witness :
    1 ≤ 2 ∧ decimateGrid gridOnePos 2 2 2 = decimateGridVec gridOnePos 2 2 2 :=
  ⟨by decide, C10_decimators_equivalent gridOnePos 2 2 2 (by decide)⟩

/-- C6: the decimated grid has shape `(h / ml, w / ml)`; each output cell is
the mean of the block samples strictly greater than zero, or exactly 0 when
the block has none; a block whose unique positive sample is `v` decimates to
exactly `v`. -/
theorem C6_decimator_cells (g : ℕ → ℕ → ℚ) (h w ml : ℕ) :
    (decimateGrid g h w ml).length = h / ml
    ∧ (∀ row ∈ decimateGrid g h w ml, row.length = w / ml)
    ∧ (∀ oy ox, decimateCell g ml oy ox =
        if (validSet g ml oy ox).card = 0 then 0
        else (∑ p ∈ validSet g ml oy ox, g (oy * ml + p.1) (ox * ml + p.2)) /
          ((validSet g ml oy ox).card : ℚ))
    ∧ (∀ oy ox i0 j0 v, i0 < ml → j0 < ml →
        g (oy * ml + i0) (ox * ml + j0) = v → 0 < v →
        (∀ i, i < ml → ∀ j, j < ml → ¬(i = i0 ∧ j = j0) →
          g (oy * ml + i) (ox * ml + j) ≤ 0) →
        decimateCell g ml oy ox = v) := by
  refine ⟨by simp [decimateGrid], fun row hrow => ?_, fun oy ox => ?_,
    fun oy ox i0 j0 v hi0 hj0 hv hvpos hrest => ?_⟩
  · rw [decimateGrid] at hrow
    obtain ⟨oy, _, rfl⟩ := List.mem_map.1 hrow
    simp
  · rw [decimateCell_eq_vec]; rfl
  · have hset : validSet g ml oy ox = {(i0, j0)} := by
      apply Finset.ext
      rintro ⟨i, j⟩
      simp only [validSet, Finset.mem_filter, Finset.mem_product,
        Finset.mem_range, Finset.mem_singleton, Prod.mk.injEq]
      constructor
      · rintro ⟨⟨hi, hj⟩, hpos⟩
        by_contra hne
        exact absurd (hrest i hi j hj (by tauto)) (not_le.2 hpos)
      · rintro ⟨rfl, rfl⟩
        exact ⟨⟨hi0, hj0⟩, hv ▸ hvpos⟩
    rw [decimateCell_eq_vec, decimateCellVec, hset]
    simp [hv]

theorem C6_decimator_cells_witness :
    decimateCell gridOnePos 2 0 0 = 5 :=
  (C6_decimator_cells gridOnePos 2 2 2).2.2.2 0 0 1 1 5 (by decide) (by decide)
    (by decide) (by decide) (by decide)

/-! ## CoordinateCorrector -/

/-- C5: for positive spacings the corrector returns exactly the half-pixel
enlarged box, and the concrete NISAR scene bounds correct as specified. -/
theorem C5_coordinate_corrector :
    (∀ minX minY maxX maxY sx sy : ℚ, 0 < sx → 0 < sy →
      correctBounds minX minY maxX maxY sx sy =
        (minX - sx / 2, minY - sy / 2, maxX + sx / 2, maxY + sy / 2))
    ∧ correctBounds 434170 9275770 768230 9601910 20 20 =
        (434160, 9275760, 768240, 9601920) := by
  constructor
  · intro _ _ _ _ _ _ _ _; rfl
  · norm_num [correctBounds]

theorem C5_coordinate_corrector_witness :
    correctBounds 0 0 10 10 2 2 = (0 - 2 / 2, 0 - 2 / 2, 10 + 2 / 2, 10 + 2 / 2) :=
  C5_coordinate_corrector.1 0 0 10 10 2 2 (by norm_num) (by norm_num)

/-! ## IFD ordering -/

/-- After `entries.sort(key=lambda e: e[0])` the tag ids are this fixed
ascending list, for every input. -/
theorem sorted_tags (nb w h : ℕ) (bcs : List ℕ) (minX minY maxX maxY : ℚ)
    (epsg : ℕ) :
    (sortByTag (buildEntries nb w h bcs minX minY maxX maxY epsg)).map
        TagEntry.tag =
      [256, 257, 258, 259, 262, 277, 284, 322, 323, 324, 325, 339,
       33550, 33922, 34735] := by
  simp [sortByTag, buildEntries, insertByTag, TAG_IMAGE_WIDTH,
    TAG_IMAGE_LENGTH, TAG_BITS_PER_SAMPLE, TAG_COMPRESSION, TAG_PHOTOMETRIC,
    TAG_SAMPLES_PER_PIXEL, TAG_PLANAR_CONFIG, TAG_TILE_WIDTH, TAG_TILE_LENGTH,
    TAG_TILE_OFFSETS, TAG_TILE_BYTE_COUNTS, TAG_SAMPLE_FORMAT,
    TAG_MODEL_TIEPOINT, TAG_MODEL_PIXEL_SCALE, TAG_GEO_KEY_DIRECTORY]

/-- C8: the sorted entry list the encoder serializes is strictly ascending
by tag id — every pair of consecutive entries has `tag_i < tag_{i+1}` — for
every input. -/
theorem C8_tags_strictly_ascending (nb w h : ℕ) (bcs : List ℕ)
    (minX minY maxX maxY : ℚ) (epsg : ℕ) :
    List.Chain' (· < ·)
      ((sortByTag (buildEntries nb w h bcs minX minY maxX maxY epsg)).map
        TagEntry.tag) := by
  rw [sorted_tags]
  simp [List.chain'_cons]

/-! ## Geo key selection -/

/-- C3 counterexample: at EPSG code 4326 (inside the geographic range) the
tiled float32 encoder still writes model type 1 and the projected
coordinate-system key 3072 — not model type 2 with key 2048 as the claim
states. -/
theorem C3_geokey_counterexample :
    geoKeysF32 4326 =
      [1, 1, 0, 3, 1024, 0, 1, 1, 1025, 0, 1, 1, 3072, 0, 1, 4326]
    ∧ (geoKeysF32 4326).getD 7 0 ≠ MODEL_TYPE_GEOGRAPHIC
    ∧ (geoKeysF32 4326).getD 12 0 ≠ KEY_GEOGRAPHIC_TYPE := by
  decide

/-- C3 (amended): the strip writer `write_minimal_geotiff` selects model
type and coordinate-system key by the geographic EPSG range test — in
particular 4326 yields model type 2 with key 2048 and 32718 yields model
type 1 with key 3072 — while the tiled float32 encoder hard-codes model
type 1 and key 3072 for every code, the code value itself being carried in
the last slot in both writers. -/
theorem C3_geokey_selection (e : ℕ) :
    (geoKeysMinimal e).getD 4 0 = KEY_GT_MODEL_TYPE
    ∧ ((geoKeysMinimal e).getD 7 0 =
        if 4000 ≤ e ∧ e < 5000 then MODEL_TYPE_GEOGRAPHIC
        else MODEL_TYPE_PROJECTED)
    ∧ ((geoKeysMinimal e).getD 12 0 =
        if 4000 ≤ e ∧ e < 5000 then KEY_GEOGRAPHIC_TYPE
        else KEY_PROJECTED_CS_TYPE)
    ∧ (geoKeysMinimal e).getD 15 0 = e
    ∧ (geoKeysF32 e).getD 7 0 = MODEL_TYPE_PROJECTED
    ∧ (geoKeysF32 e).getD 12 0 = KEY_PROJECTED_CS_TYPE
    ∧ (geoKeysF32 e).getD 15 0 = e
    ∧ (geoKeysMinimal 4326).getD 7 0 = MODEL_TYPE_GEOGRAPHIC
    ∧ (geoKeysMinimal 4326).getD 12 0 = KEY_GEOGRAPHIC_TYPE
    ∧ (geoKeysMinimal 32718).getD 7 0 = MODEL_TYPE_PROJECTED
    ∧ (geoKeysMinimal 32718).getD 12 0 = KEY_PROJECTED_CS_TYPE := by
  by_cases hg : 4000 ≤ e ∧ e < 5000 <;>
    simp [geoKeysMinimal, geoKeysF32, hg, KEY_GT_MODEL_TYPE,
      MODEL_TYPE_GEOGRAPHIC, MODEL_TYPE_PROJECTED, KEY_GEOGRAPHIC_TYPE,
      KEY_PROJECTED_CS_TYPE, KEY_GT_RASTER_TYPE]

/-! ## Error behaviour -/

/-- C9 counterexample: an empty band list — an invalid input per the claim —
is accepted by the writer, which runs to completion and produces an output
buffer instead of failing with an `InvalidInput` error. -/
theorem C9_empty_bands_accepted :
    (encodeChecked idCodec ([] : List (List ℕ)) 1 1 0 0 1 1 32718).isOk
      = true := by
  rfl

/-- C9 (amended): the writer performs no input validation; it aborts (before
any output is produced) exactly when `width = 0` or `height = 0`, through
the pixel-scale division — any other input, including an empty band list,
yields an output buffer. -/
theorem C9_error_behaviour {α : Type} [Zero α] (codec : Codec α)
    (bands : List (List α)) (w h : ℕ) (minX minY maxX maxY : ℚ) (epsg : ℕ) :
    ((encodeChecked codec bands w h minX minY maxX maxY epsg).isOk = true ↔
      ¬(w = 0 ∨ h = 0))
    ∧ (w = 0 ∨ h = 0 →
        encodeChecked codec bands w h minX minY maxX maxY epsg =
          .error "ZeroDivisionError")
    ∧ (¬(w = 0 ∨ h = 0) →
        encodeChecked codec bands w h minX minY maxX maxY epsg =
          .ok (encodeTiff codec bands w h minX minY maxX maxY epsg)) := by
  unfold encodeChecked
  by_cases hz : w = 0 ∨ h = 0 <;> simp [hz, Except.isOk, Except.toBool]

theorem C9_error_behaviour_witness :
    encodeChecked idCodec ([] : List (List ℕ)) 0 1 0 0 1 1 32718 =
      .error "ZeroDivisionError" :=
  (C9_error_behaviour idCodec [] 0 1 0 0 1 1 32718).2.1 (by decide)

/-! ## Layout arithmetic -/

theorem pad2_ge (t : ℕ) : t ≤ pad2 t := by
  unfold pad2; split <;> omega

theorem pad2_even (t : ℕ) : pad2 t % 2 = 0 := by
  unfold pad2; split <;> omega

theorem pad2_add_even (a t : ℕ) (ha : a % 2 = 0) : pad2 (a + t) = a + pad2 t := by
  unfold pad2; split <;> split <;> omega

theorem ovfReserve_ge (es : List TagEntry) : ∀ acc, acc ≤ ovfReserve acc es := by
  induction es with
  | nil => intro acc; simp [ovfReserve]
  | cons e rest ih =>
    intro acc
    unfold ovfReserve
    split
    · exact le_trans (le_trans (Nat.le_add_right _ _) (pad2_ge _)) (ih _)
    · exact ih acc

theorem ovfReserve_add_even (es : List TagEntry) :
    ∀ a b, a % 2 = 0 → ovfReserve (a + b) es = a + ovfReserve b es := by
  induction es with
  | nil => intro a b _; simp [ovfReserve]
  | cons e rest ih =>
    intro a b ha
    unfold ovfReserve
    split
    · rw [Nat.add_assoc, pad2_add_even a _ ha, ih a _ ha]
    · exact ih a b ha

theorem ovfStarts_even (es : List TagEntry) :
    ∀ acc, acc % 2 = 0 → ∀ s ∈ ovfStarts acc es, s % 2 = 0 := by
  induction es with
  | nil => intro acc _ s hs; simp [ovfStarts] at hs
  | cons e rest ih =>
    intro acc ha s hs
    unfold ovfStarts at hs
    by_cases hb : 4 < byteSize e
    · rw [if_pos hb] at hs
      rcases List.mem_cons.1 hs with rfl | hs'
      · exact ha
      · exact ih _ (pad2_even _) s hs'
    · rw [if_neg hb] at hs
      exact ih acc ha s hs

theorem tileOffsetsFrom_length (cs : List ℕ) :
    ∀ base, (tileOffsetsFrom base cs).length = cs.length := by
  induction cs with
  | nil => intro base; rfl
  | cons c t ih => intro base; simp [tileOffsetsFrom, ih]

theorem flatMap_const_length {β : Type} (f : β → List ℕ) (k : ℕ)
    (hf : ∀ a, (f a).length = k) (l : List β) :
    (l.flatMap f).length = k * l.length := by
  induction l with
  | nil => simp
  | cons a t ih => simp [List.flatMap_cons, hf, ih, Nat.mul_succ]; omega

theorem inlineBytes_length (e : TagEntry) : (inlineBytes e).length = 4 := by
  unfold inlineBytes
  split_ifs <;> rfl

theorem ovfBlock_length (e : TagEntry) (f64 : ℚ → List ℕ) (tb : ℕ)
    (bcs : List ℕ) (hf : ∀ q, (f64 q).length = 8) (hwf : wfEntry e)
    (ht : e.tag = TAG_TILE_OFFSETS → e.typ = TYPE_LONG ∧ e.count = bcs.length) :
    (ovfBlock e f64 tb bcs).length = byteSize e := by
  unfold ovfBlock byteSize
  split_ifs with h1 h2 h3
  · obtain ⟨h4, h5⟩ := ht h1
    rw [flatMap_const_length u32le 4 (fun _ => rfl), tileOffsetsFrom_length,
      h4, h5, typeSize]
    simp [TYPE_LONG, TYPE_SHORT]
  · rcases hwf with ⟨_, _, hlen⟩ | ⟨hd, _, _⟩
    · rw [flatMap_const_length u16le 2 (fun _ => rfl), hlen, h2, typeSize]
      simp [TYPE_SHORT]
    · rw [h2] at hd; simp [TYPE_SHORT, TYPE_DOUBLE] at hd
  · rcases hwf with ⟨_, _, hlen⟩ | ⟨hd, _, _⟩
    · rw [flatMap_const_length u32le 4 (fun _ => rfl), hlen, h3, typeSize]
      simp [TYPE_LONG, TYPE_SHORT]
    · rw [h3] at hd; simp [TYPE_LONG, TYPE_DOUBLE] at hd
  · rcases hwf with ⟨hsl, _, _⟩ | ⟨hd, _, hlen⟩
    · rcases hsl with hs | hl
      · exact absurd hs h2
      · exact absurd hl h3
    · rw [flatMap_const_length f64 8 hf, hlen, hd, typeSize]
      simp [TYPE_DOUBLE, TYPE_SHORT, TYPE_LONG]

theorem serEntries_fst_length (f64 : ℚ → List ℕ) (tb : ℕ) (bcs : List ℕ)
    (es : List TagEntry) : ∀ c,
    (serEntries f64 tb bcs es c).1.length = 12 * es.length := by
  induction es with
  | nil => intro c; simp [serEntries]
  | cons e rest ih =>
    intro c
    rw [serEntries]
    split
    · simp [ih, inlineBytes_length, u16le, u32le, Nat.mul_succ]; omega
    · simp [ih, u16le, u32le, Nat.mul_succ]

theorem serEntries_snd_length (f64 : ℚ → List ℕ) (tb : ℕ) (bcs : List ℕ)
    (hf : ∀ q, (f64 q).length = 8) (es : List TagEntry)
    (hwf : ∀ e ∈ es, wfEntry e)
    (ht : ∀ e ∈ es, e.tag = TAG_TILE_OFFSETS →
      e.typ = TYPE_LONG ∧ e.count = bcs.length) : ∀ c,
    (serEntries f64 tb bcs es c).2.length = ovfReserve c es - c := by
  induction es with
  | nil => intro c; simp [serEntries, ovfReserve]
  | cons e rest ih =>
    intro c
    have hwfe := hwf e (List.mem_cons_self e rest)
    have hte := ht e (List.mem_cons_self e rest)
    have hwf' := fun x hx => hwf x (List.mem_cons_of_mem e hx)
    have ht' := fun x hx => ht x (List.mem_cons_of_mem e hx)
    rw [serEntries, ovfReserve]
    by_cases hb : byteSize e ≤ 4
    · rw [if_pos hb, if_neg (by omega)]
      exact ih hwf' ht' c
    · rw [if_neg hb, if_pos (by omega)]
      have h1 : c + byteSize e ≤ pad2 (c + byteSize e) := pad2_ge _
      have h2 : pad2 (c + byteSize e) ≤
          ovfReserve (pad2 (c + byteSize e)) rest := ovfReserve_ge _ _
      simp only [List.length_append, List.length_replicate,
        ovfBlock_length e f64 tb bcs hf hwfe hte, ih hwf' ht']
      omega

/-- C4: the planned layout places the 8-byte header at offset 0, the IFD at
offset 8 with size `2 + 12·entryCount + 4`, the overflow region immediately
after the IFD (its reserved spans, walked in entry order, all starting at
even offsets), the tile payload region immediately after the overflow
region, and the serialized buffer's byte length equals the planned total
size: tile payload start plus the sum of the compressed tile lengths. -/
theorem C4_layout (f64 : ℚ → List ℕ) (es : List TagEntry)
    (tiles : List (List ℕ)) (hf : ∀ q, (f64 q).length = 8)
    (hwf : ∀ e ∈ es, wfEntry e)
    (ht : ∀ e ∈ es, e.tag = TAG_TILE_OFFSETS →
      e.typ = TYPE_LONG ∧ e.count = tiles.length) :
    (serializeTiff f64 es tiles).length = totalSize es (tiles.map List.length)
    ∧ tiffHeader.length = 8
    ∧ ifdOffset = 8
    ∧ ifdSize es.length = 2 + es.length * 12 + 4
    ∧ overflowOffset es = ifdOffset + ifdSize es.length
    ∧ tileDataOffset es = overflowOffset es + overflowSize es
    ∧ totalSize es (tiles.map List.length) =
        tileDataOffset es + (tiles.map List.length).sum
    ∧ (∀ s ∈ ovfStarts (overflowOffset es) es, s % 2 = 0) := by
  have heven : overflowOffset es % 2 = 0 := by
    unfold overflowOffset ifdOffset headerSize ifdSize; omega
  have ht' : ∀ e ∈ es, e.tag = TAG_TILE_OFFSETS →
      e.typ = TYPE_LONG ∧ e.count = (tiles.map List.length).length := by
    simpa using ht
  refine ⟨?_, rfl, rfl, rfl, rfl, rfl, rfl, ovfStarts_even es _ heven⟩
  have hres : ovfReserve (overflowOffset es) es =
      overflowOffset es + overflowSize es := by
    have h0 := ovfReserve_add_even es (overflowOffset es) 0 heven
    simpa [overflowSize] using h0
  have hsnd := serEntries_snd_length f64 (tileDataOffset es)
    (tiles.map List.length) hf es hwf ht' (overflowOffset es)
  simp only [serializeTiff, List.length_append, tiffHeader, u16le, u32le,
    serEntries_fst_length, hsnd, hres, List.length_flatten, List.length_cons,
    List.length_nil]
  unfold totalSize tileDataOffset overflowOffset ifdOffset headerSize ifdSize
  omega

theorem C4_layout_witness :
    (serializeTiff f64c wEntries wTiles).length =
      totalSize wEntries (wTiles.map List.length) :=
  (C4_layout f64c wEntries wTiles (fun _ => rfl) (by decide) (by decide)).1

/-! ## Indexing helpers -/

theorem getD_map_range {β : Type} (n i : ℕ) (f : ℕ → β) (d : β) (hi : i < n) :
    ((List.range n).map f).getD i d = f i := by
  rw [List.getD_eq_getElem?_getD, List.getElem?_map, List.getElem?_range hi]
  rfl

theorem mul_add_div_self (a b c : ℕ) (hc : 0 < c) (hb : b < c) :
    (a * c + b) / c = a := by
  rw [Nat.add_comm, Nat.add_mul_div_right _ _ hc, Nat.div_eq_of_lt hb,
    Nat.zero_add]

theorem mul_add_mod_self (a b c : ℕ) (hb : b < c) : (a * c + b) % c = b := by
  rw [Nat.add_comm, Nat.add_mul_mod_self_right, Nat.mod_eq_of_lt hb]

theorem flatMap_range_map {β : Type} (m n : ℕ) (g : ℕ → ℕ → β) :
    (List.range m).flatMap (fun i => (List.range n).map (g i)) =
      (List.range (m * n)).map fun k => g (k / n) (k % n) := by
  rcases Nat.eq_zero_or_pos n with rfl | hn
  · simp
  induction m with
  | zero => simp
  | succ p ih =>
    simp only [List.range_succ, List.flatMap_append, List.flatMap_cons,
      List.flatMap_nil, List.append_nil, ih]
    rw [Nat.succ_mul, List.range_add, List.map_append, List.map_map]
    congr 1
    refine (List.map_congr_left fun j hj => ?_).symm
    rw [List.mem_range] at hj
    simp [Function.comp, mul_add_div_self p j n hn hj,
      mul_add_mod_self p j n hj]

/-! ## TileCompressor structure -/

theorem tileData_length {α : Type} [Zero α] (bands : List (List α))
    (nb w h tx ty : ℕ) :
    (tileData bands nb w h tx ty).length = TILE_SIZE * TILE_SIZE * nb := by
  simp [tileData]

theorem tileBuffers_eq {α : Type} [Zero α] (bands : List (List α))
    (nb w h : ℕ) :
    tileBuffers bands nb w h =
      (List.range (tilesAcross h * tilesAcross w)).map fun k =>
        tileData bands nb w h (k % tilesAcross w) (k / tilesAcross w) := by
  rw [tileBuffers, flatMap_range_map]

theorem tileData_getD {α : Type} [Zero α] (bands : List (List α))
    (nb w h tx ty px py b : ℕ) (hb : b < nb) (hpx : px < TILE_SIZE)
    (hpy : py < TILE_SIZE) :
    (tileData bands nb w h tx ty).getD ((py * TILE_SIZE + px) * nb + b) 0 =
      if px < min TILE_SIZE (w - tx * TILE_SIZE) ∧
          py < min TILE_SIZE (h - ty * TILE_SIZE) then
        bandAt bands b ((ty * TILE_SIZE + py) * w + (tx * TILE_SIZE + px))
      else 0 := by
  have hnb : 0 < nb := Nat.zero_lt_of_lt hb
  have hp : py * TILE_SIZE + px < TILE_SIZE * TILE_SIZE := by
    unfold TILE_SIZE at *; omega
  have hi : (py * TILE_SIZE + px) * nb + b < TILE_SIZE * TILE_SIZE * nb := by
    calc (py * TILE_SIZE + px) * nb + b
        < (py * TILE_SIZE + px) * nb + nb := by omega
    _ = (py * TILE_SIZE + px + 1) * nb := (Nat.succ_mul _ _).symm
    _ ≤ TILE_SIZE * TILE_SIZE * nb :=
          Nat.mul_le_mul_right nb (Nat.succ_le_of_lt hp)
  rw [tileData, getD_map_range _ _ _ _ hi]
  have h1 : ((py * TILE_SIZE + px) * nb + b) % nb = b :=
    mul_add_mod_self _ _ _ hb
  have h2 : ((py * TILE_SIZE + px) * nb + b) / nb = py * TILE_SIZE + px :=
    mul_add_div_self _ _ _ hnb hb
  have h3 : (py * TILE_SIZE + px) % TILE_SIZE = px := mul_add_mod_self _ _ _ hpx
  have h4 : (py * TILE_SIZE + px) / TILE_SIZE = py :=
    mul_add_div_self _ _ _ (by norm_num [TILE_SIZE]) hpx
  simp only [h1, h2, h3, h4]

/-- `x < w` forces the pixel's tile column below the tile-grid width. -/
theorem div_lt_tilesAcross (x w : ℕ) (hx : x < w) :
    x / TILE_SIZE < tilesAcross w := by
  unfold tilesAcross TILE_SIZE at *
  omega

theorem tile_index_lt (tx ty tX tY : ℕ) (htx : tx < tX) (hty : ty < tY) :
    ty * tX + tx < tY * tX := by
  calc ty * tX + tx < ty * tX + tX := by omega
  _ = (ty + 1) * tX := (Nat.succ_mul _ _).symm
  _ ≤ tY * tX := Nat.mul_le_mul_right tX (Nat.succ_le_of_lt hty)

/-- The tile buffer at row-major tile index `ty * tilesX + tx`. -/
theorem tileBuffers_getD {α : Type} [Zero α] (bands : List (List α))
    (nb w h tx ty : ℕ) (htx : tx < tilesAcross w) (hty : ty < tilesAcross h) :
    (tileBuffers bands nb w h).getD (ty * tilesAcross w + tx) [] =
      tileData bands nb w h tx ty := by
  rw [tileBuffers_eq,
    getD_map_range _ _ _ _ (tile_index_lt tx ty _ _ htx hty),
    mul_add_mod_self _ _ _ htx,
    mul_add_div_self _ _ _ (Nat.zero_lt_of_lt htx) htx]

/-- C7: the tile grid has `tilesAcross w * tilesAcross h` buffers in
row-major order; each buffer holds exactly `TILE_SIZE² · bandCount`
samples; the sample of band `b` at in-extent pixel `(x, y)` sits at
band-interleaved position `((y % 512) * 512 + x % 512) * bandCount + b` of
tile `(x / 512, y / 512)`; positions of edge tiles outside the raster
extent are zero; and for a 700×600 raster the grid is 2×2 with tile (1,1)
covering 188×88 raw pixels. -/
theorem C7_tile_compressor {α : Type} [Zero α] (bands : List (List α))
    (w h : ℕ) :
    (tileBuffers bands bands.length w h).length =
        tilesAcross w * tilesAcross h
    ∧ (∀ t ∈ tileBuffers bands bands.length w h,
        t.length = TILE_SIZE * TILE_SIZE * bands.length)
    ∧ (∀ b x y, b < bands.length → x < w → y < h →
        ((tileBuffers bands bands.length w h).getD
            (y / TILE_SIZE * tilesAcross w + x / TILE_SIZE) []).getD
          ((y % TILE_SIZE * TILE_SIZE + x % TILE_SIZE) * bands.length + b) 0
          = bandAt bands b (y * w + x))
    ∧ (∀ tx ty px py b, tx < tilesAcross w → ty < tilesAcross h →
        px < TILE_SIZE → py < TILE_SIZE → b < bands.length →
        (w ≤ tx * TILE_SIZE + px ∨ h ≤ ty * TILE_SIZE + py) →
        ((tileBuffers bands bands.length w h).getD
            (ty * tilesAcross w + tx) []).getD
          ((py * TILE_SIZE + px) * bands.length + b) 0 = 0)
    ∧ tilesAcross 700 = 2 ∧ tilesAcross 600 = 2
    ∧ min TILE_SIZE (700 - 1 * TILE_SIZE) = 188
    ∧ min TILE_SIZE (600 - 1 * TILE_SIZE) = 88 := by
  have hT : 0 < TILE_SIZE := by norm_num [TILE_SIZE]
  refine ⟨?_, ?_, ?_, ?_, by decide, by decide, by decide, by decide⟩
  · rw [tileBuffers_eq]
    simp [Nat.mul_comm]
  · intro t ht
    rw [tileBuffers_eq] at ht
    obtain ⟨k, _, rfl⟩ := List.mem_map.1 ht
    exact tileData_length bands bands.length w h _ _
  · intro b x y hb hx hy
    have htx := div_lt_tilesAcross x w hx
    have hty := div_lt_tilesAcross y h hy
    rw [tileBuffers_getD bands bands.length w h _ _ htx hty,
      tileData_getD bands bands.length w h _ _ _ _ b hb
        (Nat.mod_lt x hT) (Nat.mod_lt y hT)]
    have hxe : x / TILE_SIZE * TILE_SIZE + x % TILE_SIZE = x := by
      unfold TILE_SIZE; omega
    have hye : y / TILE_SIZE * TILE_SIZE + y % TILE_SIZE = y := by
      unfold TILE_SIZE; omega
    have hcond : x % TILE_SIZE < min TILE_SIZE (w - x / TILE_SIZE * TILE_SIZE)
        ∧ y % TILE_SIZE < min TILE_SIZE (h - y / TILE_SIZE * TILE_SIZE) :=
      ⟨lt_min (Nat.mod_lt x hT) (by unfold TILE_SIZE at *; omega),
       lt_min (Nat.mod_lt y hT) (by unfold TILE_SIZE at *; omega)⟩
    rw [if_pos hcond, hxe, hye]
  · intro tx ty px py b htx hty hpx hpy hb hout
    rw [tileBuffers_getD bands bands.length w h _ _ htx hty,
      tileData_getD bands bands.length w h _ _ _ _ b hb hpx hpy, if_neg]
    rcases hout with hw | hh
    · rintro ⟨h1, -⟩
      have := lt_of_lt_of_le h1 (min_le_right _ _)
      omega
    · rintro ⟨-, h2⟩
      have := lt_of_lt_of_le h2 (min_le_right _ _)
      omega

theorem C7_tile_compressor_witness :
    0 < ([[ (5 : ℚ) ]] : List (List ℚ)).length ∧ 0 < 1 ∧ 0 < 1 ∧
      ((tileBuffers [[(5 : ℚ)]] 1 1 1).getD
          (0 / TILE_SIZE * tilesAcross 1 + 0 / TILE_SIZE) []).getD
        ((0 % TILE_SIZE * TILE_SIZE + 0 % TILE_SIZE) * 1 + 0) 0
        = bandAt [[(5 : ℚ)]] 0 (0 * 1 + 0) :=
  ⟨by decide, by decide, by decide,
    (C7_tile_compressor [[(5 : ℚ)]] 1 1).2.2.1 0 0 0 (by decide) (by decide)
      (by decide)⟩

/-! ## The single-tile run, evaluated -/

theorem bugTile_length : bugTile.length = 262144 := by
  rw [bugTile, tileData_length]
  norm_num [TILE_SIZE]

theorem bug_tiles_eq : tileBuffers oneBand 1 1 1 = [bugTile] := by
  norm_num [tileBuffers, tilesAcross, TILE_SIZE, bugTile, List.range_succ]

theorem bug_entries_eq :
    sortByTag (buildEntries 1 1 1 [262144] 0 0 1 1 32718) = esBug := by
  norm_num [buildEntries, sortByTag, insertByTag, esBug, geoKeysF32,
    tilesAcross, TILE_SIZE, TAG_IMAGE_WIDTH, TAG_IMAGE_LENGTH,
    TAG_BITS_PER_SAMPLE, TAG_COMPRESSION, TAG_PHOTOMETRIC,
    TAG_SAMPLES_PER_PIXEL, TAG_PLANAR_CONFIG, TAG_TILE_WIDTH,
    TAG_TILE_LENGTH, TAG_TILE_OFFSETS, TAG_TILE_BYTE_COUNTS,
    TAG_SAMPLE_FORMAT, TAG_MODEL_TIEPOINT, TAG_MODEL_PIXEL_SCALE,
    TAG_GEO_KEY_DIRECTORY, TYPE_SHORT, TYPE_LONG, TYPE_DOUBLE,
    KEY_GT_MODEL_TYPE, KEY_GT_RASTER_TYPE, KEY_PROJECTED_CS_TYPE,
    MODEL_TYPE_PROJECTED, RASTER_TYPE_PIXEL_IS_AREA]

set_option maxRecDepth 40000 in
theorem bug_ser_fst :
    (serEntries f64c 298 [262144] esBug 194).1 = (bugPre.drop 10).take 180 := by
  decide

set_option maxRecDepth 40000 in
theorem bug_ser_snd :
    (serEntries f64c 298 [262144] esBug 194).2 = bugPre.drop 194 := by
  decide

set_option maxRecDepth 40000 in
theorem serialize_esBug (t : List ℕ) (ht : t.length = 262144) :
    serializeTiff f64c esBug [t] = bugPre ++ t := by
  simp only [serializeTiff, List.map_cons, List.map_nil, ht]
  rw [show overflowOffset esBug = 194 from by decide,
    show tileDataOffset esBug = 298 from by decide, bug_ser_fst, bug_ser_snd]
  simp only [List.flatten_cons, List.flatten_nil, List.append_nil,
    ← List.append_assoc]
  congr 1

theorem bugBuf_eq : bugBuf = bugPre ++ bugTile := by
  have h1 : bugBuf = serializeTiff f64c esBug [bugTile] := by
    simp only [bugBuf, encodeTiff, show oneBand.length = 1 from rfl,
      bug_tiles_eq, idCodec, List.map_id, id_eq, List.map_cons, List.map_nil,
      bugTile_length, bug_entries_eq]
  rw [h1]
  exact serialize_esBug bugTile bugTile_length

theorem bugTile_head : bugTile.getD 0 0 = 42 := by
  have h := tileData_getD oneBand 1 1 1 0 0 0 0 0 (by norm_num)
    (by norm_num [TILE_SIZE]) (by norm_num [TILE_SIZE])
  simpa [bugTile, TILE_SIZE, bandAt, oneBand] using h

set_option maxRecDepth 100000 in
/-- C2: on the single-tile raster (1×1, one band — tile-offset count 1,
transient byte size 4) the writer emits the tile-offset value as the inline
placeholder 0: a compliant reader of the produced buffer obtains tile offset
0, while the layout places the tile payload at absolute offset 298, where
the payload's first byte (the sample 42) actually sits.  The value array is
not routed to overflow and the placeholder is never back-filled. -/
theorem C2_tile_offset_inline_placeholder :
    longArrayVal bugBuf TAG_TILE_OFFSETS 0 = 0
    ∧ tileDataOffset esBug = 298
    ∧ readByte bugBuf 298 = 42 := by
  refine ⟨?_, by decide, ?_⟩
  · rw [bugBuf_eq]
    decide
  · rw [bugBuf_eq, readByte, List.getD_append_right _ _ _ _ (by decide),
      show (298 : ℕ) - bugPre.length = 0 from by decide]
    exact bugTile_head

set_option maxRecDepth 100000 in
/-- C1: decoding the writer's output per the format fails on the single-tile
raster: for band 0 at pixel (0,0) the reader — following the tile-offset
array, which carries the inline placeholder 0 — decompresses the bytes at
offset 0 (the file header) and returns 73 (the first header byte `I`),
not the input sample 42. -/
theorem C1_roundtrip_fails_single_tile :
    decodeSample (fun l => l) bugBuf 0 0 0 = 73
    ∧ bandAt oneBand 0 0 = 42 := by
  constructor
  · rw [bugBuf_eq]
    decide
  · decide

end Sardine
